import Mathlib

/-!
Verification development for the five-slot book-info extraction page
(`src/app/page.tsx`).  The page keeps a list of API keys, a selected key, a
buffer for a new key, and five question slots; it runs a generative-model
call per slot and parses the response as JSON after stripping code fences.

The JavaScript string/JSON primitives the page uses (`String.prototype.trim`,
the fence-stripping regex replace, `JSON.parse`) are embedded below as
executable functions on character lists, and the React state handlers are
embedded as pure state transformers.  The generative-model call itself is
external; each run is parameterised by its outcome (the response text, or a
thrown error).
-/

/-- JSON values as produced by `JSON.parse`.  Number literals are kept as
their source lexeme: no claim depends on numeric value, only on shape. -/
inductive Json where
  | null : Json
  | bool (b : Bool) : Json
  | num (lexeme : String) : Json
  | str (s : String) : Json
  | arr (elems : List Json) : Json
  | obj (members : List (String × Json)) : Json

/-- The double-quote character. -/
def quoteChar : Char := Char.ofNat 34

/-- The backslash character. -/
def backslashChar : Char := Char.ofNat 92

/-- The opening-brace character. -/
def openBraceChar : Char := Char.ofNat 123

/-- The closing-brace character. -/
def closeBraceChar : Char := Char.ofNat 125

/-- Whitespace as removed by JavaScript `String.prototype.trim` (the
characters that actually occur in this program's strings). -/
def jsWhitespace (c : Char) : Bool :=
  c = ' ' || c = '\t' || c = '\n' || c = '\r' || c = '\x0b' || c = '\x0c'

/-- Drop leading and trailing whitespace from a character list. -/
def trimList (cs : List Char) : List Char :=
  ((cs.dropWhile jsWhitespace).reverse.dropWhile jsWhitespace).reverse

/-- JavaScript `s.trim()`. -/
def jsTrim (s : String) : String := String.mk (trimList s.toList)

/-- If `pre` is a leading segment of `cs`, return the remainder. -/
def stripLead : List Char → List Char → Option (List Char)
  | [], cs => some cs
  | _ :: _, [] => none
  | p :: ps, c :: cs => if c = p then stripLead ps cs else none

/-- The tagged opening fence the source regex matches at the start
(the literal characters of the regex alternative anchored with a caret). -/
def fenceOpenTag : List Char := Char.ofNat 96 :: Char.ofNat 96 :: Char.ofNat 96 :: 'j' :: 's' :: 'o' :: 'n' :: []

/-- The closing fence the source regex matches at the end of the string. -/
def fenceClose : List Char := Char.ofNat 96 :: Char.ofNat 96 :: Char.ofNat 96 :: []

/-- The cleaning step of `processQuestion`
(`responseText.trim().replace(regex, "").trim()` where the regex removes the
literal prefix of three backticks followed by the letters j s o n, or three
backticks anchored at the end of the string).  A single left-to-right regex
pass is equivalent to stripping the tagged prefix once when present and then
one trailing fence when present, since the two matches cannot overlap. -/
def stripFences (s : String) : String :=
  let t0 := trimList s.toList
  let t1 := match stripLead fenceOpenTag t0 with
    | some r => r
    | none => t0
  let t2 := match stripLead fenceClose t1.reverse with
    | some r => r.reverse
    | none => t1
  String.mk (trimList t2)

/-- JSON whitespace (per the JSON grammar used by `JSON.parse`). -/
def jsonWs (c : Char) : Bool :=
  c = ' ' || c = '\t' || c = '\n' || c = '\r'

/-- Skip JSON whitespace. -/
def skipWs (cs : List Char) : List Char := cs.dropWhile jsonWs

/-- Numeric value of a hexadecimal digit, if the character is one. -/
def hexVal (c : Char) : Option Nat :=
  if '0' ≤ c ∧ c ≤ '9' then some (c.toNat - '0'.toNat)
  else if 'a' ≤ c ∧ c ≤ 'f' then some (c.toNat - 'a'.toNat + 10)
  else if 'A' ≤ c ∧ c ≤ 'F' then some (c.toNat - 'A'.toNat + 10)
  else none

/-- Parse the body of a JSON string (the opening quote already consumed):
returns the decoded characters and the input after the closing quote.
Escape sequences follow the JSON grammar; raw control characters are
rejected, as `JSON.parse` rejects them. -/
def parseStringBody : List Char → Option (List Char × List Char)
  | [] => none
  | c :: rest =>
    if c = quoteChar then some ([], rest)
    else if c = backslashChar then
      match rest with
      | [] => none
      | e :: rest2 =>
        if e = quoteChar then (parseStringBody rest2).map (fun p => (quoteChar :: p.1, p.2))
        else if e = backslashChar then (parseStringBody rest2).map (fun p => (backslashChar :: p.1, p.2))
        else if e = '/' then (parseStringBody rest2).map (fun p => ('/' :: p.1, p.2))
        else if e = 'b' then (parseStringBody rest2).map (fun p => (Char.ofNat 8 :: p.1, p.2))
        else if e = 'f' then (parseStringBody rest2).map (fun p => (Char.ofNat 12 :: p.1, p.2))
        else if e = 'n' then (parseStringBody rest2).map (fun p => ('\n' :: p.1, p.2))
        else if e = 'r' then (parseStringBody rest2).map (fun p => ('\r' :: p.1, p.2))
        else if e = 't' then (parseStringBody rest2).map (fun p => ('\t' :: p.1, p.2))
        else if e = 'u' then
          match rest2 with
          | h1 :: h2 :: h3 :: h4 :: rest3 =>
            match hexVal h1, hexVal h2, hexVal h3, hexVal h4 with
            | some v1, some v2, some v3, some v4 =>
              (parseStringBody rest3).map
                (fun p => (Char.ofNat (((v1 * 16 + v2) * 16 + v3) * 16 + v4) :: p.1, p.2))
            | _, _, _, _ => none
          | _ => none
        else none
    else if c.toNat < 32 then none
    else (parseStringBody rest).map (fun p => (c :: p.1, p.2))

/-- Parse a JSON number at the head of the input: returns its lexeme and the
remaining input.  Grammar: an optional minus sign, an integer part that is
`0` or a nonzero digit followed by digits, an optional fraction, an optional
exponent. -/
def parseNumberLex (cs : List Char) : Option (List Char × List Char) :=
  let (sign, cs1) :=
    match cs with
    | c :: r => if c = '-' then ([c], r) else (([] : List Char), cs)
    | [] => (([] : List Char), cs)
  match cs1 with
  | [] => none
  | c :: r =>
    if ¬ c.isDigit then none
    else
      let (intPart, cs2) :=
        if c = '0' then ([c], r)
        else (c :: r.takeWhile Char.isDigit, r.dropWhile Char.isDigit)
      let (fracPart, cs3) :=
        match cs2 with
        | d :: r2 =>
          if d = '.' then
            match r2 with
            | e :: _ =>
              if e.isDigit then (d :: r2.takeWhile Char.isDigit, some (r2.dropWhile Char.isDigit))
              else ([], none)
            | [] => ([], none)
          else ([], some cs2)
        | [] => ([], some cs2)
      match cs3 with
      | none => none
      | some cs3 =>
        let (expPart, cs4) :=
          match cs3 with
          | d :: r2 =>
            if d = 'e' ∨ d = 'E' then
              let (esign, r3) :=
                match r2 with
                | e :: r4 => if e = '+' ∨ e = '-' then ([e], r4) else (([] : List Char), r2)
                | [] => (([] : List Char), r2)
              match r3 with
              | e :: _ =>
                if e.isDigit then (d :: esign ++ r3.takeWhile Char.isDigit, some (r3.dropWhile Char.isDigit))
                else ([], none)
              | [] => ([], none)
            else ([], some cs3)
          | [] => ([], some cs3)
        match cs4 with
        | none => none
        | some cs4 => some (sign ++ intPart ++ fracPart ++ expPart, cs4)

mutual

/-- Parse one JSON value (fuel-bounded recursive descent). -/
def parseValue : Nat → List Char → Option (Json × List Char)
  | 0, _ => none
  | Nat.succ fuel, cs =>
    match skipWs cs with
    | [] => none
    | c :: rest =>
      if c = quoteChar then
        (parseStringBody rest).map (fun p => (Json.str (String.mk p.1), p.2))
      else if c = openBraceChar then parseMembersStart fuel rest
      else if c = '[' then parseElemsStart fuel rest
      else if c = 't' then
        match rest with
        | 'r' :: 'u' :: 'e' :: r => some (Json.bool true, r)
        | _ => none
      else if c = 'f' then
        match rest with
        | 'a' :: 'l' :: 's' :: 'e' :: r => some (Json.bool false, r)
        | _ => none
      else if c = 'n' then
        match rest with
        | 'u' :: 'l' :: 'l' :: r => some (Json.null, r)
        | _ => none
      else if c = '-' ∨ c.isDigit then
        (parseNumberLex (c :: rest)).map (fun p => (Json.num (String.mk p.1), p.2))
      else none

/-- Parse the elements of a JSON array, just after the opening bracket. -/
def parseElemsStart : Nat → List Char → Option (Json × List Char)
  | 0, _ => none
  | Nat.succ fuel, cs =>
    match skipWs cs with
    | [] => none
    | c :: rest =>
      if c = ']' then some (Json.arr [], rest)
      else
        match parseValue fuel (c :: rest) with
        | none => none
        | some (v, r) => parseElemsRest fuel [v] r

/-- Parse the continuation of a JSON array after at least one element. -/
def parseElemsRest : Nat → List Json → List Char → Option (Json × List Char)
  | 0, _, _ => none
  | Nat.succ fuel, acc, cs =>
    match skipWs cs with
    | [] => none
    | c :: rest =>
      if c = ',' then
        match parseValue fuel rest with
        | none => none
        | some (v, r) => parseElemsRest fuel (acc ++ [v]) r
      else if c = ']' then some (Json.arr acc, rest)
      else none

/-- Parse the members of a JSON object, just after the opening brace. -/
def parseMembersStart : Nat → List Char → Option (Json × List Char)
  | 0, _ => none
  | Nat.succ fuel, cs =>
    match skipWs cs with
    | [] => none
    | c :: rest =>
      if c = closeBraceChar then some (Json.obj [], rest)
      else if c = quoteChar then
        match parseStringBody rest with
        | none => none
        | some (key, r) => parseMemberValue fuel [] (String.mk key) r
      else none

/-- Parse the colon and value of one object member, then continue. -/
def parseMemberValue : Nat → List (String × Json) → String → List Char → Option (Json × List Char)
  | 0, _, _, _ => none
  | Nat.succ fuel, acc, key, cs =>
    match skipWs cs with
    | [] => none
    | c :: rest =>
      if c = ':' then
        match parseValue fuel rest with
        | none => none
        | some (v, r) => parseMembersRest fuel (acc ++ [(key, v)]) r
      else none

/-- Parse the continuation of a JSON object after at least one member. -/
def parseMembersRest : Nat → List (String × Json) → List Char → Option (Json × List Char)
  | 0, _, _ => none
  | Nat.succ fuel, acc, cs =>
    match skipWs cs with
    | [] => none
    | c :: rest =>
      if c = ',' then
        match skipWs rest with
        | [] => none
        | c2 :: rest2 =>
          if c2 = quoteChar then
            match parseStringBody rest2 with
            | none => none
            | some (key, r) => parseMemberValue fuel acc (String.mk key) r
          else none
      else if c = closeBraceChar then some (Json.obj acc, rest)
      else none

end

/-- JavaScript `JSON.parse(s)`: the whole input, modulo surrounding JSON
whitespace, must be one JSON value.  The fuel bound exceeds the number of
recursive-descent calls any input of this length can cause. -/
def parseJson (s : String) : Option Json :=
  let cs := s.toList
  match parseValue (2 * cs.length + 4) cs with
  | none => none
  | some (j, rest) => if skipWs rest = [] then some j else none

/-- The response-decoding pipeline of `processQuestion`: trim, strip fences,
parse as JSON (`page.tsx` lines 116-120). -/
def decodeResponse (t : String) : Option Json :=
  parseJson (stripFences t)

/-- One question slot of the page (the `QuestionResult` interface): the
editable question text, the parsed result if any, the error message if any,
and the in-flight flag.  The source casts the parsed JSON to `BookInfo`
without runtime validation, so the stored result is the raw parsed value. -/
structure QuestionResult where
  question : String
  result : Option Json
  error : Option String
  isLoading : Bool

/-- The page's state: the credential list, the active selection, the
"new credential" input buffer, the add-form visibility flag, and the five
question slots. -/
structure BoardState where
  apiKeys : List String
  selectedApiKey : String
  newApiKey : String
  showAddForm : Bool
  questions : List QuestionResult

/-- The slot used as a fallback for out-of-range reads. -/
def defaultSlot : QuestionResult :=
  { question := "", result := none, error := none, isLoading := false }

/-- The initial `questions` state of the page. -/
def initialQuestions : List QuestionResult :=
  [ { question := "J.K. 롤링의 해리포터 찾아줘.", result := none, error := none, isLoading := false },
    { question := "", result := none, error := none, isLoading := false },
    { question := "", result := none, error := none, isLoading := false },
    { question := "", result := none, error := none, isLoading := false },
    { question := "", result := none, error := none, isLoading := false } ]

/-- The initial page state. -/
def initialState : BoardState :=
  { apiKeys := [], selectedApiKey := "", newApiKey := "", showAddForm := false,
    questions := initialQuestions }

/-- The validation message set when the credential or the question is
missing. -/
def inputRequiredMsg : String := "API 키와 질문을 모두 입력해주세요."

/-- The fallback message used when a thrown value is not an `Error`. -/
def unknownErrorMsg : String := "알 수 없는 오류가 발생했습니다."

/-- `handleAddApiKey`: if the trimmed buffer is non-empty and not already a
member, append it, select it, clear the buffer and hide the form; otherwise
do nothing. -/
def handleAddApiKey (s : BoardState) : BoardState :=
  let t := jsTrim s.newApiKey
  if t ≠ "" ∧ ¬ s.apiKeys.contains t then
    { s with apiKeys := s.apiKeys ++ [t], selectedApiKey := t,
             newApiKey := "", showAddForm := false }
  else s

/-- Typing `raw` into the new-credential buffer and clicking add. -/
def addCredential (s : BoardState) (raw : String) : BoardState :=
  handleAddApiKey { s with newApiKey := raw }

/-- `handleDeleteApiKey`: filter the key out of the list; when the deleted
key was the selection, re-select the first remaining key, or the empty
string when none remain (`updatedKeys[0] || ""`). -/
def handleDeleteApiKey (s : BoardState) (keyToDelete : String) : BoardState :=
  let updatedKeys := s.apiKeys.filter (fun key => key ≠ keyToDelete)
  { s with apiKeys := updatedKeys,
           selectedApiKey :=
             if s.selectedApiKey = keyToDelete then updatedKeys.headD ""
             else s.selectedApiKey }

/-- `updateQuestion`: replace slot `index`'s question text in place. -/
def updateQuestion (s : BoardState) (i : Nat) (text : String) : BoardState :=
  { s with questions :=
      s.questions.set i { s.questions.getD i defaultSlot with question := text } }

/-- The outcome of one generative-model call, seen from `processQuestion`:
the call returned a response text, or it threw an `Error` carrying a
message, or it threw a value that is not an `Error`. -/
inductive FetchOutcome where
  | respond (text : String) : FetchOutcome
  | throwWith (msg : String) : FetchOutcome
  | throwNonError : FetchOutcome

/-- The try/catch/finally body of `processQuestion` applied to one slot:
on a response, decode it and store the parsed value (clearing the error) or
store the parse failure's message `parseMsg` (the `SyntaxError` message,
engine-supplied); on a thrown `Error`, store its message; on a thrown
non-`Error`, store the fallback literal.  The `finally` clause ends with
`isLoading = false`, and `result` was cleared at the start of the `try`. -/
def runSlot (q : QuestionResult) (out : FetchOutcome) (parseMsg : String) :
    QuestionResult :=
  match out with
  | .respond t =>
    match decodeResponse t with
    | some j => { q with result := some j, error := none, isLoading := false }
    | none => { q with result := none, error := some parseMsg, isLoading := false }
  | .throwWith msg => { q with result := none, error := some msg, isLoading := false }
  | .throwNonError =>
    { q with result := none, error := some unknownErrorMsg, isLoading := false }

/-- Whether `processQuestion`'s validation guard fires for slot `i`:
the trimmed selection is empty or the slot's trimmed question is empty. -/
def needsInput (s : BoardState) (i : Nat) : Bool :=
  jsTrim s.selectedApiKey = "" || jsTrim (s.questions.getD i defaultSlot).question = ""

/-- `processQuestion(index)`, with the model call's outcome supplied as a
parameter.  Returns the new state together with the list of model
invocations performed, each recorded as (slot index, credential, question).
When the guard fires the slot's `error` is set and nothing else changes —
in particular `result` and `isLoading` are left as they were.  Otherwise
the slot goes through the loading/clear/run sequence and ends at
`runSlot`'s value; the selection string is captured untrimmed, as
`new GoogleGenerativeAI(selectedApiKey)` receives it. -/
def processQuestionT (s : BoardState) (i : Nat) (out : FetchOutcome)
    (parseMsg : String) : BoardState × List (Nat × String × String) :=
  let q := s.questions.getD i defaultSlot
  if needsInput s i then
    ({ s with questions := s.questions.set i { q with error := some inputRequiredMsg } }, [])
  else
    ({ s with questions := s.questions.set i (runSlot q out parseMsg) },
     [(i, s.selectedApiKey, q.question)])

/-- One step of `handleSubmitAll`'s dispatch loop: slot `i` is started only
when its question in the snapshot `s0` is non-empty after trimming. -/
def runAllStep (s0 : BoardState) (outs : Nat → FetchOutcome) (parseMsg : String)
    (acc : BoardState × List (Nat × String × String)) (i : Nat) :
    BoardState × List (Nat × String × String) :=
  if jsTrim (s0.questions.getD i defaultSlot).question ≠ "" then
    let r := processQuestionT acc.1 i (outs i) parseMsg
    (r.1, acc.2 ++ r.2)
  else acc

/-- `handleSubmitAll`, with each slot's model-call outcome supplied by
`outs`.  The two alert guards return with no state change; otherwise every
slot whose trimmed question is non-empty is run, and the handler resolves
with the state in which every started run has completed (the
`Promise.all` join). -/
def handleSubmitAllT (s : BoardState) (outs : Nat → FetchOutcome)
    (parseMsg : String) : BoardState × List (Nat × String × String) :=
  if jsTrim s.selectedApiKey = "" then (s, [])
  else if (s.questions.filter (fun q => jsTrim q.question ≠ "")).length = 0 then (s, [])
  else (List.range s.questions.length).foldl (runAllStep s outs parseMsg) (s, [])

/-- Reading an updated position: `set` followed by `getD` at the same index
returns the written element when the index is in range. -/
lemma getD_set_self {α : Type} (l : List α) (i : Nat) (b d : α)
    (h : i < l.length) : (l.set i b).getD i d = b := by
  simp [List.getD, List.getElem?_set_self', List.getElem?_eq_getElem, h]

/-- Reading an untouched position: `set` followed by `getD` at a different
index reads the original list. -/
lemma getD_set_ne {α : Type} (l : List α) {i j : Nat} (b d : α)
    (h : i ≠ j) : (l.set i b).getD j d = l.getD j d := by
  simp [List.getD, List.getElem?_set_ne h]

/-- A pointwise Boolean predicate survives `set` when the written element
satisfies it. -/
lemma all_set {α : Type} {p : α → Bool} {l : List α} {n : Nat} {b : α}
    (hl : l.all p = true) (hb : p b = true) : (l.set n b).all p = true := by
  rw [List.all_eq_true] at *
  intro x hx
  rcases List.mem_or_eq_of_mem_set hx with h | h
  · exact hl x h
  · subst h; exact hb

/-- `addCredential` either leaves the credential list unchanged (trimmed
input empty or already present) or appends the trimmed input at the end. -/
lemma addCredential_apiKeys (st : BoardState) (raw : String) :
    (addCredential st raw).apiKeys =
      if jsTrim raw = "" ∨ st.apiKeys.contains (jsTrim raw) = true
      then st.apiKeys else st.apiKeys ++ [jsTrim raw] := by
  unfold addCredential handleAddApiKey
  by_cases h1 : jsTrim raw = ""
  · simp [h1]
  · by_cases h2 : st.apiKeys.contains (jsTrim raw) = true
    · have h2' : jsTrim raw ∈ st.apiKeys := by simpa using h2
      simp [h1, h2, h2']
    · have h2' : jsTrim raw ∉ st.apiKeys := by simpa using h2
      simp [h1, h2, h2']

/-- One `addCredential` call keeps the credential list duplicate-free. -/
lemma addCredential_nodup (st : BoardState) (raw : String)
    (h : st.apiKeys.Nodup) : (addCredential st raw).apiKeys.Nodup := by
  rw [addCredential_apiKeys]
  split
  · exact h
  · rename_i hcond
    push_neg at hcond
    have hnm : jsTrim raw ∉ st.apiKeys := by
      intro hmem
      exact hcond.2 (by simpa using hmem)
    simp [List.nodup_append, h, hnm]

/-- Any sequence of `addCredential` calls keeps the list duplicate-free. -/
lemma foldl_addCredential_nodup (raws : List String) (st : BoardState)
    (h : st.apiKeys.Nodup) : ((raws.foldl addCredential st).apiKeys).Nodup := by
  induction raws generalizing st with
  | nil => exact h
  | cons r rs ih => exact ih _ (addCredential_nodup st r h)

/-- C8: starting from the empty credential list, any sequence of
`addCredential` calls yields a duplicate-free list; each call trims its
input and either is a no-op (trimmed input empty or already present) or
appends the trimmed input at the end, so first-insertion order is
preserved. -/
theorem c8_addCredential_nodup_first_insertion (raws : List String) :
    ((raws.foldl addCredential initialState).apiKeys).Nodup ∧
    ∀ (st : BoardState) (raw : String),
      (addCredential st raw).apiKeys =
        if jsTrim raw = "" ∨ st.apiKeys.contains (jsTrim raw) = true
        then st.apiKeys else st.apiKeys ++ [jsTrim raw] := by
  constructor
  · exact foldl_addCredential_nodup raws initialState (by simp [initialState])
  · exact addCredential_apiKeys

/-- C9: deleting the currently active credential removes it (and nothing
else) from the sequence, keeps the remaining order, and re-selects the
first remaining credential, or the empty selection if none remain. -/
theorem c9_delete_active_reselects_first (s : BoardState) :
    (handleDeleteApiKey s s.selectedApiKey).selectedApiKey =
      (handleDeleteApiKey s s.selectedApiKey).apiKeys.headD "" ∧
    s.selectedApiKey ∉ (handleDeleteApiKey s s.selectedApiKey).apiKeys ∧
    (∀ k, k ∈ (handleDeleteApiKey s s.selectedApiKey).apiKeys ↔
      (k ∈ s.apiKeys ∧ k ≠ s.selectedApiKey)) ∧
    (handleDeleteApiKey s s.selectedApiKey).apiKeys.Sublist s.apiKeys := by
  refine ⟨?_, ?_, ?_, ?_⟩
  · simp [handleDeleteApiKey]
  · intro hmem
    have := (List.mem_filter.1 hmem).2
    simp at this
  · intro k
    constructor
    · intro hmem
      have h := List.mem_filter.1 hmem
      refine ⟨h.1, ?_⟩
      simpa using h.2
    · intro ⟨h1, h2⟩
      exact List.mem_filter.2 ⟨h1, by simpa using h2⟩
  · exact List.filter_sublist _

/-- C10: deleting a credential that is not the active selection removes it
(and nothing else), keeps the remaining order, and leaves the selection
unchanged. -/
theorem c10_delete_inactive_frame (s : BoardState) (target : String)
    (_hmem : target ∈ s.apiKeys) (hne : target ≠ s.selectedApiKey) :
    (handleDeleteApiKey s target).selectedApiKey = s.selectedApiKey ∧
    target ∉ (handleDeleteApiKey s target).apiKeys ∧
    (∀ k, k ∈ (handleDeleteApiKey s target).apiKeys ↔
      (k ∈ s.apiKeys ∧ k ≠ target)) ∧
    (handleDeleteApiKey s target).apiKeys.Sublist s.apiKeys := by
  refine ⟨?_, ?_, ?_, ?_⟩
  · show (if s.selectedApiKey = target then _ else s.selectedApiKey) = s.selectedApiKey
    rw [if_neg (fun h => hne h.symm)]
  · intro hmem2
    have := (List.mem_filter.1 hmem2).2
    simp at this
  · intro k
    constructor
    · intro hmem2
      have h := List.mem_filter.1 hmem2
      refine ⟨h.1, ?_⟩
      simpa using h.2
    · intro ⟨h1, h2⟩
      exact List.mem_filter.2 ⟨h1, by simpa using h2⟩
  · exact List.filter_sublist _

/-- C10 witness: deleting `"b"` while `"a"` is selected keeps the selection
`"a"`, with `"b"` present and distinct from the selection. -/
theorem c10_delete_inactive_frame_witness :
    (handleDeleteApiKey ⟨["a", "b"], "a", "", false, []⟩ "b").selectedApiKey = "a" :=
  (c10_delete_inactive_frame ⟨["a", "b"], "a", "", false, []⟩ "b"
    (by decide) (by decide)).1

/-- C2: when the trimmed selection and the slot's trimmed question are both
non-empty, `runOne(i)` ends with `isLoading = false`; a successfully decoded
response stores the record and clears the error; a parse failure stores the
parse failure's message with no result; a thrown `Error` stores its message
with no result; a thrown non-`Error` stores the fallback literal with no
result. -/
theorem c2_runOne_success_failure (s : BoardState) (i : Nat)
    (out : FetchOutcome) (parseMsg : String) (hi : i < s.questions.length)
    (hk : jsTrim s.selectedApiKey ≠ "")
    (hq : jsTrim (s.questions.getD i defaultSlot).question ≠ "") :
    ((processQuestionT s i out parseMsg).1.questions.getD i defaultSlot).isLoading = false ∧
    (match out with
     | .respond t =>
       (match decodeResponse t with
        | some j =>
          ((processQuestionT s i out parseMsg).1.questions.getD i defaultSlot).result = some j ∧
          ((processQuestionT s i out parseMsg).1.questions.getD i defaultSlot).error = none
        | none =>
          ((processQuestionT s i out parseMsg).1.questions.getD i defaultSlot).result = none ∧
          ((processQuestionT s i out parseMsg).1.questions.getD i defaultSlot).error = some parseMsg)
     | .throwWith msg =>
       ((processQuestionT s i out parseMsg).1.questions.getD i defaultSlot).result = none ∧
       ((processQuestionT s i out parseMsg).1.questions.getD i defaultSlot).error = some msg
     | .throwNonError =>
       ((processQuestionT s i out parseMsg).1.questions.getD i defaultSlot).result = none ∧
       ((processQuestionT s i out parseMsg).1.questions.getD i defaultSlot).error = some unknownErrorMsg) := by
  have hni : needsInput s i = false := by
    simp only [needsInput, Bool.or_eq_false_iff, decide_eq_false_iff_not]
    exact ⟨hk, hq⟩
  have hslot : (processQuestionT s i out parseMsg).1.questions.getD i defaultSlot
      = runSlot (s.questions.getD i defaultSlot) out parseMsg := by
    simp only [processQuestionT, hni, Bool.false_eq_true, if_false]
    exact getD_set_self _ _ _ _ hi
  rw [hslot]
  cases out with
  | respond t =>
    cases hdec : decodeResponse t with
    | some j => simp [runSlot, hdec]
    | none => simp [runSlot, hdec]
  | throwWith msg => simp [runSlot]
  | throwNonError => simp [runSlot]

/-- C2 witness: a thrown non-`Error` on slot 0 of the initial board with a
selected key ends not loading, with no result and the fallback message. -/
theorem c2_runOne_success_failure_witness :
    ((processQuestionT { initialState with selectedApiKey := "k" } 0
        FetchOutcome.throwNonError "m").1.questions.getD 0 defaultSlot).isLoading = false ∧
    ((processQuestionT { initialState with selectedApiKey := "k" } 0
        FetchOutcome.throwNonError "m").1.questions.getD 0 defaultSlot).result = none ∧
    ((processQuestionT { initialState with selectedApiKey := "k" } 0
        FetchOutcome.throwNonError "m").1.questions.getD 0 defaultSlot).error = some unknownErrorMsg := by
  have h := c2_runOne_success_failure { initialState with selectedApiKey := "k" } 0
    FetchOutcome.throwNonError "m" (by decide) (by decide) (by decide)
  exact ⟨h.1, h.2⟩

/-- C3: with an empty trimmed selection or an empty trimmed question, the
run performs no model invocation, sets the slot's error to the
credential-and-question-required message, and leaves `isLoading` as it was
(false when it was false). -/
theorem c3_runOne_validation (s : BoardState) (i : Nat) (out : FetchOutcome)
    (parseMsg : String) (hi : i < s.questions.length)
    (h : jsTrim s.selectedApiKey = "" ∨ jsTrim (s.questions.getD i defaultSlot).question = "")
    (hl : (s.questions.getD i defaultSlot).isLoading = false) :
    (processQuestionT s i out parseMsg).2 = [] ∧
    ((processQuestionT s i out parseMsg).1.questions.getD i defaultSlot).error = some inputRequiredMsg ∧
    ((processQuestionT s i out parseMsg).1.questions.getD i defaultSlot).isLoading = false := by
  have hni : needsInput s i = true := by
    simp only [needsInput, Bool.or_eq_true, decide_eq_true_eq]
    exact h
  refine ⟨?_, ?_⟩
  · simp [processQuestionT, hni]
  · have hslot : (processQuestionT s i out parseMsg).1.questions.getD i defaultSlot
        = { s.questions.getD i defaultSlot with error := some inputRequiredMsg } := by
      simp only [processQuestionT, hni, if_true]
      exact getD_set_self _ _ _ _ hi
    rw [hslot]
    exact ⟨rfl, hl⟩

/-- C3 witness: on the initial board (no key selected), running slot 0
performs no invocation, sets the required-input message and stays not
loading. -/
theorem c3_runOne_validation_witness :
    (processQuestionT initialState 0 FetchOutcome.throwNonError "m").2 = [] ∧
    ((processQuestionT initialState 0 FetchOutcome.throwNonError "m").1.questions.getD 0 defaultSlot).error = some inputRequiredMsg ∧
    ((processQuestionT initialState 0 FetchOutcome.throwNonError "m").1.questions.getD 0 defaultSlot).isLoading = false :=
  c3_runOne_validation initialState 0 FetchOutcome.throwNonError "m"
    (by decide) (Or.inl (by decide)) (by decide)

/-- C4: with active credential `"k1"` and questions `["query A", "",
"query B", "", ""]`, `runAll` performs exactly the two invocations for
indices 0 and 2 (in that order), leaves slots 1, 3 and 4 exactly as they
were, and resolves with both started runs completed: slots 0 and 2 hold the
full outcome of their run. -/
theorem c4_runAll_two_invocations (outs : Nat → FetchOutcome) (parseMsg : String)
    (keys : List String) (buf : String) (form : Bool)
    (r0 r1 r2 r3 r4 : Option Json) (e0 e1 e2 e3 e4 : Option String)
    (l0 l1 l2 l3 l4 : Bool) :
    handleSubmitAllT
      { apiKeys := keys, selectedApiKey := "k1", newApiKey := buf, showAddForm := form,
        questions :=
          [ { question := "query A", result := r0, error := e0, isLoading := l0 },
            { question := "", result := r1, error := e1, isLoading := l1 },
            { question := "query B", result := r2, error := e2, isLoading := l2 },
            { question := "", result := r3, error := e3, isLoading := l3 },
            { question := "", result := r4, error := e4, isLoading := l4 } ] } outs parseMsg
    = ({ apiKeys := keys, selectedApiKey := "k1", newApiKey := buf, showAddForm := form,
         questions :=
          [ runSlot { question := "query A", result := r0, error := e0, isLoading := l0 } (outs 0) parseMsg,
            { question := "", result := r1, error := e1, isLoading := l1 },
            runSlot { question := "query B", result := r2, error := e2, isLoading := l2 } (outs 2) parseMsg,
            { question := "", result := r3, error := e3, isLoading := l3 },
            { question := "", result := r4, error := e4, isLoading := l4 } ] },
       [(0, "k1", "query A"), (2, "k1", "query B")]) := rfl

/-- C5: with an empty trimmed selection, or when no slot has a non-empty
trimmed question, `runAll` performs zero invocations and returns the state
unchanged. -/
theorem c5_runAll_validation (s : BoardState) (outs : Nat → FetchOutcome)
    (parseMsg : String)
    (h : jsTrim s.selectedApiKey = "" ∨
      (s.questions.filter (fun q => jsTrim q.question ≠ "")).length = 0) :
    handleSubmitAllT s outs parseMsg = (s, []) := by
  unfold handleSubmitAllT
  rcases h with h | h
  · rw [if_pos h]
  · by_cases hk : jsTrim s.selectedApiKey = ""
    · rw [if_pos hk]
    · rw [if_neg hk, if_pos h]

/-- C5 witness: on the initial board (no key selected), `runAll` does
nothing. -/
theorem c5_runAll_validation_witness :
    handleSubmitAllT initialState (fun _ => FetchOutcome.throwNonError) "m"
      = (initialState, []) :=
  c5_runAll_validation initialState (fun _ => FetchOutcome.throwNonError) "m"
    (Or.inl (by decide))

/-- The upstream response text of the spec's worked example: a fenced,
`json`-tagged block holding the six-field record with three empty fields. -/
def exampleResponse : String :=
  "```json\x0a\x7b\"title\":\"Harry Potter\",\"author\":\"J.K. Rowling\",\"publisher\":\"\",\"publicationYear\":\"\",\"genre\":\"\",\"language\":\"\"\x7d\x0a```"

/-- The parsed record the example must decode to. -/
def exampleRecord : Json :=
  Json.obj
    [("title", Json.str "Harry Potter"), ("author", Json.str "J.K. Rowling"),
     ("publisher", Json.str ""), ("publicationYear", Json.str ""),
     ("genre", Json.str ""), ("language", Json.str "")]

/-- An upstream response wrapped in untagged triple-backtick fences around
an (otherwise valid) empty JSON object. -/
def untaggedFencedResponse : String := "```\x0a\x7b\x7d\x0a```"

/-- C6 counterexample: the claim says leading/trailing triple-backtick
fences, optionally tagged, are stripped before decoding — but a leading
fence that is untagged is not removed: the fence-wrapped empty object fails
to decode even though its unfenced content is valid JSON (so removal of the
fences would have made it decode). -/
theorem c6_counterexample_untagged_fence :
    decodeResponse untaggedFencedResponse = none ∧
    parseJson "\x7b\x7d" = some (Json.obj []) ∧
    stripFences untaggedFencedResponse = String.mk (Char.ofNat 96 :: Char.ofNat 96 :: Char.ofNat 96 :: '\x0a' :: openBraceChar :: closeBraceChar :: []) :=
  ⟨rfl, rfl, rfl⟩

/-- C6 amended: before decoding, the Extractor trims the response, strips a
leading fence only when it is tagged exactly `json`, and strips one
trailing untagged fence; in particular the spec's worked example decodes to
the six-field record with three fields empty (a leading fence that is
untagged or carries another tag is not removed, see the counterexample). -/
theorem c6_amended_fence_stripping :
    decodeResponse exampleResponse = some exampleRecord ∧
    stripFences exampleResponse =
      "\x7b\"title\":\"Harry Potter\",\"author\":\"J.K. Rowling\",\"publisher\":\"\",\"publicationYear\":\"\",\"genre\":\"\",\"language\":\"\"\x7d" :=
  ⟨rfl, rfl⟩

/-- A six-field `BookInfo` record as the spec describes it: a JSON object
whose keys are exactly `title`, `author`, `publisher`, `publicationYear`,
`genre`, `language`, each bound to a string.  Modelled from the spec's
words; the source performs no such check. -/
def bookInfoShapeSpec (j : Json) : Bool :=
  match j with
  | Json.obj kvs =>
    kvs.map Prod.fst == ["title", "author", "publisher", "publicationYear", "genre", "language"]
      && kvs.all (fun kv =>
        match kv.2 with
        | Json.str _ => true
        | _ => false)
  | _ => false

/-- C7 counterexample: the response `\x7b\x7d` is valid JSON that is not a
six-field record, yet the run stores it as the slot's result with no error
— the wrongly-shaped value is accepted silently instead of surfacing a
parse error. -/
theorem c7_counterexample_shape_not_checked :
    bookInfoShapeSpec (Json.obj []) = false ∧
    ((processQuestionT { initialState with selectedApiKey := "k" } 0
        (FetchOutcome.respond "\x7b\x7d") "m").1.questions.getD 0 defaultSlot).result
      = some (Json.obj []) ∧
    ((processQuestionT { initialState with selectedApiKey := "k" } 0
        (FetchOutcome.respond "\x7b\x7d") "m").1.questions.getD 0 defaultSlot).error
      = none :=
  ⟨rfl, rfl, rfl⟩

/-- C7 amended: only responses that fail JSON decoding after fence removal
surface the parse failure's message in the slot's error with no stored
result; a response that parses as JSON is stored as the result whatever its
shape, with no shape validation. -/
theorem c7_amended_malformed_json_surfaces (s : BoardState) (i : Nat)
    (t parseMsg : String) (hi : i < s.questions.length)
    (hk : jsTrim s.selectedApiKey ≠ "")
    (hq : jsTrim (s.questions.getD i defaultSlot).question ≠ "")
    (hbad : decodeResponse t = none) :
    ((processQuestionT s i (FetchOutcome.respond t) parseMsg).1.questions.getD i defaultSlot).result = none ∧
    ((processQuestionT s i (FetchOutcome.respond t) parseMsg).1.questions.getD i defaultSlot).error = some parseMsg := by
  have hni : needsInput s i = false := by
    simp only [needsInput, Bool.or_eq_false_iff, decide_eq_false_iff_not]
    exact ⟨hk, hq⟩
  have hslot : (processQuestionT s i (FetchOutcome.respond t) parseMsg).1.questions.getD i defaultSlot
      = runSlot (s.questions.getD i defaultSlot) (FetchOutcome.respond t) parseMsg := by
    simp only [processQuestionT, hni, Bool.false_eq_true, if_false]
    exact getD_set_self _ _ _ _ hi
  rw [hslot]
  simp [runSlot, hbad]

/-- C7 amended witness: the response `not json` fails decoding and the run
stores the parse message with no result. -/
theorem c7_amended_malformed_json_surfaces_witness :
    ((processQuestionT { initialState with selectedApiKey := "k" } 0
        (FetchOutcome.respond "not json") "m").1.questions.getD 0 defaultSlot).result = none ∧
    ((processQuestionT { initialState with selectedApiKey := "k" } 0
        (FetchOutcome.respond "not json") "m").1.questions.getD 0 defaultSlot).error = some "m" :=
  c7_amended_malformed_json_surfaces { initialState with selectedApiKey := "k" } 0
    "not json" "m" (by decide) (by decide) (by decide) rfl

/-- Mutual exclusion of `result` and `error` across all slots. -/
def invariantAll (s : BoardState) : Bool :=
  s.questions.all (fun q => q.result.isNone || q.error.isNone)

/-- The slot operations the invariant claim ranges over: editing a slot's
question, running one slot, running all slots (each run carrying its model
outcome and the parse failure's message it would raise). -/
inductive Op where
  | setQ (i : Nat) (text : String) : Op
  | runOne (i : Nat) (out : FetchOutcome) (parseMsg : String) : Op
  | runAll (outs : Nat → FetchOutcome) (parseMsg : String) : Op

/-- Apply one operation to the board. -/
def applyOp (s : BoardState) : Op → BoardState
  | .setQ i text => updateQuestion s i text
  | .runOne i out parseMsg => (processQuestionT s i out parseMsg).1
  | .runAll outs parseMsg => (handleSubmitAllT s outs parseMsg).1

/-- Apply a sequence of operations to the board. -/
def applyOps (s : BoardState) (ops : List Op) : BoardState :=
  ops.foldl applyOp s

/-- A trace is safe when every `runOne` whose validation guard fires
targets a slot holding no result (the guard sets `error` without clearing
`result`, so this is exactly the condition under which it cannot break the
mutual-exclusion invariant). -/
def safeOps (s : BoardState) : List Op → Bool
  | [] => true
  | op :: rest =>
    (match op with
     | .runOne i _ _ =>
       !needsInput s i || (s.questions.getD i defaultSlot).result.isNone
     | _ => true) && safeOps (applyOp s op) rest

/-- A slot read with `getD` from a board satisfying the invariant is
exclusive (in range it is a member; out of range it is the default). -/
lemma invariant_getD {s : BoardState} (h : invariantAll s = true) (i : Nat) :
    ((s.questions.getD i defaultSlot).result.isNone
      || (s.questions.getD i defaultSlot).error.isNone) = true := by
  by_cases hi : i < s.questions.length
  · have hm : s.questions.getD i defaultSlot ∈ s.questions := by
      rw [List.getD_eq_getElem _ _ hi]
      exact List.getElem_mem hi
    exact (List.all_eq_true.1 h) _ hm
  · rw [List.getD_eq_default _ _ (Nat.le_of_not_lt hi)]
    rfl

/-- The completed run of a slot always leaves `result` and `error`
mutually exclusive. -/
lemma runSlot_exclusive (q : QuestionResult) (out : FetchOutcome)
    (parseMsg : String) :
    ((runSlot q out parseMsg).result.isNone
      || (runSlot q out parseMsg).error.isNone) = true := by
  cases out with
  | respond t =>
    cases hdec : decodeResponse t with
    | some j => simp [runSlot, hdec]
    | none => simp [runSlot, hdec]
  | throwWith msg => simp [runSlot]
  | throwNonError => simp [runSlot]

/-- The completed run of a slot never changes its question text. -/
lemma runSlot_question (q : QuestionResult) (out : FetchOutcome)
    (parseMsg : String) : (runSlot q out parseMsg).question = q.question := by
  cases out with
  | respond t => cases hdec : decodeResponse t <;> simp [runSlot, hdec]
  | throwWith msg => simp [runSlot]
  | throwNonError => simp [runSlot]

/-- Editing a question never touches `result` or `error`, so it preserves
the invariant. -/
lemma invariantAll_updateQuestion (s : BoardState) (i : Nat) (text : String)
    (h : invariantAll s = true) :
    invariantAll (updateQuestion s i text) = true := by
  apply all_set h
  exact invariant_getD h i

/-- `runOne` preserves the invariant whenever its validation guard does not
fire, or fires on a slot with no stored result. -/
lemma invariantAll_processQuestionT (s : BoardState) (i : Nat)
    (out : FetchOutcome) (parseMsg : String) (h : invariantAll s = true)
    (hsafe : (!needsInput s i
      || (s.questions.getD i defaultSlot).result.isNone) = true) :
    invariantAll (processQuestionT s i out parseMsg).1 = true := by
  by_cases hni : needsInput s i = true
  · have hres : (s.questions.getD i defaultSlot).result.isNone = true := by
      simpa [hni] using hsafe
    simp only [processQuestionT, hni, if_true]
    apply all_set h
    simpa using hres
  · have hni' : needsInput s i = false := by simpa using hni
    simp only [processQuestionT, hni', Bool.false_eq_true, if_false]
    apply all_set h
    exact runSlot_exclusive _ _ _

/-- `runOne` never changes the selected credential. -/
lemma processQuestionT_selected (s : BoardState) (i : Nat)
    (out : FetchOutcome) (parseMsg : String) :
    (processQuestionT s i out parseMsg).1.selectedApiKey = s.selectedApiKey := by
  cases hni : needsInput s i <;> simp [processQuestionT, hni]

/-- When the guard fires, slot `i` ends as the old slot with the
validation message as its error. -/
lemma processQuestionT_slot_guard (s : BoardState) (i : Nat)
    (out : FetchOutcome) (parseMsg : String) (hni : needsInput s i = true)
    (hi : i < s.questions.length) :
    (processQuestionT s i out parseMsg).1.questions.getD i defaultSlot
      = { s.questions.getD i defaultSlot with error := some inputRequiredMsg } := by
  simp only [processQuestionT, hni, if_true]
  exact getD_set_self _ _ _ _ hi

/-- When the guard does not fire, slot `i` ends as its completed run. -/
lemma processQuestionT_slot_run (s : BoardState) (i : Nat)
    (out : FetchOutcome) (parseMsg : String) (hni : needsInput s i = false)
    (hi : i < s.questions.length) :
    (processQuestionT s i out parseMsg).1.questions.getD i defaultSlot
      = runSlot (s.questions.getD i defaultSlot) out parseMsg := by
  simp only [processQuestionT, hni, Bool.false_eq_true, if_false]
  exact getD_set_self _ _ _ _ hi

/-- `runOne` on slot `i` leaves every other slot untouched. -/
lemma processQuestionT_slot_other (s : BoardState) (i : Nat)
    (out : FetchOutcome) (parseMsg : String) (j : Nat) (hij : i ≠ j) :
    (processQuestionT s i out parseMsg).1.questions.getD j defaultSlot
      = s.questions.getD j defaultSlot := by
  cases hni : needsInput s i
  · simp only [processQuestionT, hni, Bool.false_eq_true, if_false]
    exact getD_set_ne _ _ _ hij
  · simp only [processQuestionT, hni, if_true]
    exact getD_set_ne _ _ _ hij

/-- `runOne` never changes any slot's question text. -/
lemma processQuestionT_question (s : BoardState) (i : Nat)
    (out : FetchOutcome) (parseMsg : String) (j : Nat) :
    ((processQuestionT s i out parseMsg).1.questions.getD j defaultSlot).question
      = (s.questions.getD j defaultSlot).question := by
  by_cases hij : i = j
  · subst hij
    by_cases hi : i < s.questions.length
    · cases hni : needsInput s i
      · rw [processQuestionT_slot_run s i out parseMsg hni hi, runSlot_question]
      · rw [processQuestionT_slot_guard s i out parseMsg hni hi]
    · have hset : ∀ b : QuestionResult, s.questions.set i b = s.questions :=
        fun _ => List.set_eq_of_length_le (Nat.le_of_not_lt hi)
      cases hni : needsInput s i
      · simp only [processQuestionT, hni, Bool.false_eq_true, if_false, hset]
      · simp only [processQuestionT, hni, if_true, hset]
  · rw [processQuestionT_slot_other s i out parseMsg j hij]

/-- The dispatch loop of `runAll` preserves the invariant: every started
slot re-checks its guard against an unchanged credential and unchanged
question texts, so the guard never fires inside the loop. -/
lemma invariantAll_runAll_fold (s0 : BoardState) (outs : Nat → FetchOutcome)
    (parseMsg : String) (hsel : jsTrim s0.selectedApiKey ≠ "")
    (idxs : List Nat) :
    ∀ (acc : BoardState × List (Nat × String × String)),
      invariantAll acc.1 = true →
      acc.1.selectedApiKey = s0.selectedApiKey →
      (∀ j, (acc.1.questions.getD j defaultSlot).question
        = (s0.questions.getD j defaultSlot).question) →
      invariantAll ((idxs.foldl (runAllStep s0 outs parseMsg) acc).1) = true := by
  induction idxs with
  | nil => intro acc h _ _; exact h
  | cons i rest ih =>
    intro acc h hsel' hq
    simp only [List.foldl_cons]
    by_cases hc : jsTrim (s0.questions.getD i defaultSlot).question ≠ ""
    · have hstep : runAllStep s0 outs parseMsg acc i
          = ((processQuestionT acc.1 i (outs i) parseMsg).1,
             acc.2 ++ (processQuestionT acc.1 i (outs i) parseMsg).2) := by
        simp only [runAllStep, if_pos hc]
      rw [hstep]
      apply ih
      · apply invariantAll_processQuestionT _ _ _ _ h
        have hni : needsInput acc.1 i = false := by
          simp only [needsInput, Bool.or_eq_false_iff, decide_eq_false_iff_not]
          exact ⟨by rw [hsel']; exact hsel, by rw [hq i]; exact hc⟩
        simp [hni]
      · rw [processQuestionT_selected]; exact hsel'
      · intro j; rw [processQuestionT_question]; exact hq j
    · have hstep : runAllStep s0 outs parseMsg acc i = acc := by
        simp only [runAllStep, if_neg hc]
      rw [hstep]
      exact ih acc h hsel' hq

/-- `runAll` preserves the invariant from any board state. -/
lemma invariantAll_handleSubmitAllT (s : BoardState)
    (outs : Nat → FetchOutcome) (parseMsg : String)
    (h : invariantAll s = true) :
    invariantAll (handleSubmitAllT s outs parseMsg).1 = true := by
  unfold handleSubmitAllT
  by_cases h1 : jsTrim s.selectedApiKey = ""
  · rw [if_pos h1]; exact h
  · rw [if_neg h1]
    by_cases h2 : (s.questions.filter (fun q => jsTrim q.question ≠ "")).length = 0
    · rw [if_pos h2]; exact h
    · rw [if_neg h2]
      exact invariantAll_runAll_fold s outs parseMsg h1 _ (s, []) h rfl (fun _ => rfl)

/-- C1 counterexample: from a reachable board (one credential added), run
slot 0 successfully, empty its question, then run it again: the validation
guard sets `error` without clearing `result`, so the slot observably holds
both a result and an error at once — the claimed mutual exclusion fails. -/
theorem c1_counterexample_both_present :
    ((applyOps (addCredential initialState "k")
        [Op.runOne 0 (FetchOutcome.respond "\x7b\x7d") "m",
         Op.setQ 0 "",
         Op.runOne 0 FetchOutcome.throwNonError "m"]).questions.getD 0 defaultSlot).result
      = some (Json.obj []) ∧
    ((applyOps (addCredential initialState "k")
        [Op.runOne 0 (FetchOutcome.respond "\x7b\x7d") "m",
         Op.setQ 0 "",
         Op.runOne 0 FetchOutcome.throwNonError "m"]).questions.getD 0 defaultSlot).error
      = some inputRequiredMsg :=
  ⟨rfl, rfl⟩

/-- C1 amended: `result` and `error` stay mutually exclusive across every
sequence of `setQuestion` / `runOne` / `runAll` operations, provided every
`runOne` whose validation guard fires targets a slot with no stored result;
without that proviso the guard sets the error while leaving an existing
result in place (see the counterexample).  `runAll` needs no proviso: it
only starts slots whose guard cannot fire. -/
theorem c1_amended_exclusive_invariant (s : BoardState) (ops : List Op)
    (h : invariantAll s = true) (hsafe : safeOps s ops = true) :
    invariantAll (applyOps s ops) = true := by
  induction ops generalizing s with
  | nil => exact h
  | cons op rest ih =>
    simp only [safeOps, Bool.and_eq_true] at hsafe
    have hinv : invariantAll (applyOp s op) = true := by
      cases op with
      | setQ i text => exact invariantAll_updateQuestion s i text h
      | runOne i out parseMsg =>
        exact invariantAll_processQuestionT s i out parseMsg h hsafe.1
      | runAll outs parseMsg =>
        exact invariantAll_handleSubmitAllT s outs parseMsg h
    exact ih (applyOp s op) hinv hsafe.2

/-- C1 amended witness: a safe trace on the initial board with a selected
credential (an edit then a successful run) keeps the invariant. -/
theorem c1_amended_exclusive_invariant_witness :
    invariantAll (applyOps { initialState with selectedApiKey := "k" }
      [Op.setQ 1 "x", Op.runOne 0 (FetchOutcome.respond "\x7b\x7d") "m"]) = true :=
  c1_amended_exclusive_invariant { initialState with selectedApiKey := "k" }
    [Op.setQ 1 "x", Op.runOne 0 (FetchOutcome.respond "\x7b\x7d") "m"] rfl rfl
